import Mathlib

/-!
# Verification of the THF performance monitor (src/performance_monitor.py)

Shallow embedding of `PerformanceMonitor` and its operations.  Python floats
are modelled by exact rationals `ℚ`, timestamps by integers `ℤ` (seconds),
`datetime`/`timedelta` arithmetic by integer subtraction, and the Python dict
`active_trades` by an insertion-ordered association list.  The float value
`float("inf")` used as the profit-factor sentinel is modelled by `QInf.inf`.
-/

/-- A Python float that is either a finite value (modelled exactly by `ℚ`)
or the `float("inf")` sentinel used for the profit factor. -/
inductive QInf where
  | fin (q : ℚ)
  | inf
deriving DecidableEq, Repr

/-- Embeds the dataclass `TradeMetrics` of src/performance_monitor.py.
Optional fields default to `none` (`None`) exactly as in the dataclass;
`volatility_at_entry` and `market_impact` default to `0.0`. -/
structure TradeMetrics where
  symbol : String
  entry_time : ℤ
  exit_time : Option ℤ
  entry_price : ℚ
  exit_price : Option ℚ
  position_size : ℚ
  signal_confidence : ℚ
  pnl : Option ℚ := none
  trade_duration : Option ℤ := none
  max_drawdown : Option ℚ := none
  volatility_at_entry : ℚ := 0
  market_impact : ℚ := 0
deriving DecidableEq, Repr

/-- Embeds the dict `optimal_params` (keys `confidence_threshold`,
`position_size_factor`, `signal_cooldown`). -/
structure ParamSet where
  confidence_threshold : ℚ
  position_size_factor : ℚ
  signal_cooldown : ℚ
deriving DecidableEq, Repr

/-- One entry of `params_history`: `{timestamp, params (copy), metrics}`
with the four metric fields flattened. -/
structure ParamsHistoryEntry where
  timestamp : ℤ
  params : ParamSet
  win_rate : ℚ
  profit_factor : QInf
  sharpe_ratio : ℚ
  max_drawdown : ℚ
deriving DecidableEq, Repr

/-- Embeds the mutable state of a `PerformanceMonitor` instance: the fields
assigned in `__init__` (src/performance_monitor.py lines 39-72). -/
structure PerformanceMonitor where
  initial_capital : ℚ
  current_capital : ℚ
  confidence_threshold : ℚ
  evaluation_window : ℕ
  max_drawdown_threshold : ℚ
  target_win_rate : ℚ
  trades : List TradeMetrics
  active_trades : List (String × TradeMetrics)
  daily_returns : List ℚ
  win_rate : ℚ
  profit_factor : QInf
  sharpe_ratio : ℚ
  max_drawdown : ℚ
  optimal_params : ParamSet
  params_history : List ParamsHistoryEntry
deriving DecidableEq, Repr

/-- `__init__`: capital starts at `initial_capital`, metrics at zero, ledgers
empty, `optimal_params` seeded with the configured confidence threshold,
`position_size_factor = 1.0` and `signal_cooldown = 60`. -/
def mkPerformanceMonitor (initial_capital confidence_threshold : ℚ)
    (evaluation_window : ℕ) (max_drawdown_threshold target_win_rate : ℚ) :
    PerformanceMonitor :=
  { initial_capital := initial_capital
    current_capital := initial_capital
    confidence_threshold := confidence_threshold
    evaluation_window := evaluation_window
    max_drawdown_threshold := max_drawdown_threshold
    target_win_rate := target_win_rate
    trades := []
    active_trades := []
    daily_returns := []
    win_rate := 0
    profit_factor := QInf.fin 0
    sharpe_ratio := 0
    max_drawdown := 0
    optimal_params :=
      { confidence_threshold := confidence_threshold
        position_size_factor := 1
        signal_cooldown := 60 }
    params_history := [] }

/-- Python dict lookup `d[k]` / `k in d` on an insertion-ordered assoc list. -/
def dictGet (k : String) : List (String × TradeMetrics) → Option TradeMetrics
  | [] => none
  | (k', v) :: rest => if k' = k then some v else dictGet k rest

/-- Python dict assignment `d[k] = v`: replaces the value in place if the key
is present (keeping its position), otherwise appends at the end. -/
def dictInsert (k : String) (v : TradeMetrics) :
    List (String × TradeMetrics) → List (String × TradeMetrics)
  | [] => [(k, v)]
  | (k', v') :: rest =>
      if k' = k then (k, v) :: rest else (k', v') :: dictInsert k v rest

/-- Python `del d[k]`: removes the (unique) binding of `k`. -/
def dictErase (k : String) :
    List (String × TradeMetrics) → List (String × TradeMetrics)
  | [] => []
  | (k', v') :: rest =>
      if k' = k then rest else (k', v') :: dictErase k rest

/-- Python slice `l[-w:]`: the last `w` elements, except that `w = 0` gives
the whole list (since `l[-0:] = l[0:] = l`). -/
def pyLastWindow (w : ℕ) (l : List α) : List α :=
  if w = 0 then l else l.drop (l.length - w)

/-- The Python test `t.pnl and t.pnl > 0`: `None` and `0.0` are falsy, so
this holds exactly when the pnl is set and strictly positive. -/
def pnlPositive (t : TradeMetrics) : Bool :=
  match t.pnl with
  | some p => decide (0 < p)
  | none => false

/-- The Python test `t.pnl and t.pnl < 0`: holds exactly when the pnl is set
and strictly negative (`None` and `0.0` are falsy). -/
def pnlNegative (t : TradeMetrics) : Bool :=
  match t.pnl with
  | some p => decide (p < 0)
  | none => false

/-- The comprehension filter `[t.pnl for t in recent_trades if t.pnl]`:
keeps a pnl only when it is set and nonzero (Python truthiness). -/
def truthyPnl (t : TradeMetrics) : Option ℚ :=
  match t.pnl with
  | some p => if p = 0 then none else some p
  | none => none

/-- `gross_profit = sum(t.pnl for t in recent_trades if t.pnl and t.pnl > 0)`. -/
def grossProfit (l : List TradeMetrics) : ℚ :=
  ((l.filter pnlPositive).map (fun t => t.pnl.getD 0)).sum

/-- `gross_loss = abs(sum(t.pnl for t in recent_trades if t.pnl and t.pnl < 0))`. -/
def grossLoss (l : List TradeMetrics) : ℚ :=
  |((l.filter pnlNegative).map (fun t => t.pnl.getD 0)).sum|

/-- Embeds `pd.Series(xs).resample("D")` where `xs` is a plain Python list of
floats.  Such a Series carries the default `RangeIndex`, and pandas
`resample` raises `TypeError` ("Only valid with DatetimeIndex,
TimedeltaIndex or PeriodIndex, but got an instance of RangeIndex") whenever
the index is not datetime-like — for empty and non-empty series alike.  The
call therefore never produces a value, which the codomain `Option Empty`
records: its only inhabitant is `none`, standing for the raised TypeError. -/
def pdResampleDailySum (xs : List ℚ) : Option Empty :=
  match xs with
  | _ => none

/-- Embeds `_update_performance_metrics` (lines 131-163).  Returns the
monitor state after the call together with `true` when the call raised.
With no closed trades it returns immediately (line 134).  Otherwise it
assigns `win_rate` (line 142) and `profit_factor` (line 147), and then
executes `pd.Series([t.pnl for t in recent_trades if t.pnl]).resample('D')`
(line 150), which raises TypeError (see `pdResampleDailySum`), so the
assignments to `daily_returns`, `sharpe_ratio` and `max_drawdown`
(lines 151-163) are never reached and the exception propagates while the
two fields already assigned keep their new values. -/
def updatePerformanceMetrics (s : PerformanceMonitor) :
    PerformanceMonitor × Bool :=
  if s.trades.isEmpty then (s, false)
  else
    let recent := pyLastWindow s.evaluation_window s.trades
    let profitable := (recent.filter pnlPositive).length
    let winRate : ℚ := (profitable : ℚ) / (recent.length : ℚ)
    let gp := grossProfit recent
    let gl := grossLoss recent
    let pf : QInf := if 0 < gl then QInf.fin (gp / gl) else QInf.inf
    match pdResampleDailySum (recent.filterMap truthyPnl) with
    | none => ({ s with win_rate := winRate, profit_factor := pf }, true)
    | some e => e.elim

/-- Embeds `record_trade_entry` (lines 76-97): builds the open
`TradeMetrics` record and assigns `self.active_trades[symbol] = trade`.
No duplicate check is performed: an existing open trade for `symbol` is
silently replaced. -/
def record_trade_entry (s : PerformanceMonitor) (symbol : String)
    (entry_time : ℤ)
    (entry_price position_size signal_confidence volatility : ℚ) :
    PerformanceMonitor :=
  let trade : TradeMetrics :=
    { symbol := symbol
      entry_time := entry_time
      exit_time := none
      entry_price := entry_price
      exit_price := none
      position_size := position_size
      signal_confidence := signal_confidence
      volatility_at_entry := volatility }
  { s with active_trades := dictInsert symbol trade s.active_trades }

/-- Outcome of a `record_trade_exit` call: early return with a warning
(no active trade), normal completion, or completion of the ledger updates
followed by an exception raised inside `_update_performance_metrics`. -/
inductive ExitStatus where
  | noActiveWarning
  | closedOk
  | closedMetricsRaised
deriving DecidableEq, Repr

/-- The closed record produced by `record_trade_exit` from the active
record `tr` (lines 110-117): sets exit time/price and market impact,
`trade_duration = exit_time - entry_time`, and
`pnl = (exit_price - entry_price) * position_size`. -/
def closeTradeRecord (tr : TradeMetrics) (exit_time : ℤ)
    (exit_price market_impact : ℚ) : TradeMetrics :=
  { tr with
    exit_time := some exit_time
    exit_price := some exit_price
    market_impact := market_impact
    trade_duration := some (exit_time - tr.entry_time)
    pnl := some ((exit_price - tr.entry_price) * tr.position_size) }

/-- Embeds `record_trade_exit` (lines 99-129).  If `symbol` has no active
trade it logs a warning and returns with the state untouched (lines
106-108).  Otherwise it adds the pnl to `current_capital` (line 120),
appends the closed record to `trades` (line 123), deletes the active entry
(line 124), and only then calls `_update_performance_metrics` (line 127);
an exception raised there propagates but the ledger mutations persist. -/
def record_trade_exit (s : PerformanceMonitor) (symbol : String)
    (exit_time : ℤ) (exit_price market_impact : ℚ) :
    PerformanceMonitor × ExitStatus :=
  match dictGet symbol s.active_trades with
  | none => (s, ExitStatus.noActiveWarning)
  | some tr =>
      let closed := closeTradeRecord tr exit_time exit_price market_impact
      let s1 : PerformanceMonitor :=
        { s with
          current_capital := s.current_capital + closed.pnl.getD 0
          trades := s.trades ++ [closed]
          active_trades := dictErase symbol s.active_trades }
      let r := updatePerformanceMetrics s1
      (r.1, if r.2 then ExitStatus.closedMetricsRaised else ExitStatus.closedOk)

/-- The grid `np.arange(0.5, 0.9, 0.05)` of candidate confidence
thresholds (line 196), idealized to exact rationals:
0.50, 0.55, 0.60, 0.65, 0.70, 0.75, 0.80, 0.85 (8 values; 0.90 excluded). -/
def confCandidates : List ℚ :=
  [1/2, 11/20, 3/5, 13/20, 7/10, 3/4, 4/5, 17/20]

/-- One row of the `confidence_performance` DataFrame (lines 185-192). -/
structure ConfRow where
  confidence : ℚ
  pnl : ℚ
  success : ℚ
deriving DecidableEq, Repr

/-- Builds `confidence_performance`: one row per window trade whose pnl is
not `None`, with `success = 1 if t.pnl and t.pnl > 0 else 0`. -/
def confRows (recent : List TradeMetrics) : List ConfRow :=
  recent.filterMap fun t =>
    t.pnl.map fun p =>
      { confidence := t.signal_confidence
        pnl := p
        success := if pnlPositive t then 1 else 0 }

/-- The sub-DataFrame `confidence_performance[confidence >= threshold]`. -/
def eligRows (rows : List ConfRow) (threshold : ℚ) : List ConfRow :=
  rows.filter fun r => decide (threshold ≤ r.confidence)

/-- `high_conf_trades['success'].mean()`: empirical win rate on the rows
with confidence at least `threshold`. -/
def subsetWR (rows : List ConfRow) (threshold : ℚ) : ℚ :=
  ((eligRows rows threshold).map (fun r => r.success)).sum /
    ((eligRows rows threshold).length : ℚ)

/-- One iteration of the `for threshold in thresholds` loop (lines
200-208): requires strictly more than 10 eligible rows, then replaces the
running best on a strict win-rate improvement. -/
def sweepStep (rows : List ConfRow) (acc : ℚ × ℚ) (threshold : ℚ) :
    ℚ × ℚ :=
  if 10 < (eligRows rows threshold).length then
    if acc.2 < subsetWR rows threshold then (threshold, subsetWR rows threshold)
    else acc
  else acc

/-- The confidence-threshold search (lines 194-210): when the DataFrame is
non-empty, folds the sweep over the candidate grid starting from
`(self.confidence_threshold, self.win_rate)` — note the start value is the
constructor attribute `self.confidence_threshold`, not the current
`optimal_params['confidence_threshold']` — and stores the resulting best
threshold into the parameter set. -/
def thresholdStep (s : PerformanceMonitor) (rows : List ConfRow)
    (p : ParamSet) : ParamSet :=
  if rows.isEmpty then p
  else
    { p with
      confidence_threshold :=
        (confCandidates.foldl (sweepStep rows)
          (s.confidence_threshold, s.win_rate)).1 }

/-- The position-size adjustment and safety clamp (lines 212-225):
multiply by 0.8 when `max_drawdown > max_drawdown_threshold`, else by 1.2
when `win_rate > target_win_rate` and
`max_drawdown < max_drawdown_threshold * 0.5`, else unchanged; then
`np.clip(·, 0.2, 2.0)`. -/
def sizeAdjusted (s : PerformanceMonitor) (psf : ℚ) : ℚ :=
  if s.max_drawdown_threshold < s.max_drawdown then psf * (4/5)
  else if s.target_win_rate < s.win_rate ∧
      s.max_drawdown < s.max_drawdown_threshold * (1/2) then psf * (6/5)
  else psf

def sizeStep (s : PerformanceMonitor) (p : ParamSet) : ParamSet :=
  { p with
    position_size_factor :=
      min (max (sizeAdjusted s p.position_size_factor) (1/5)) 2 }

/-- The cooldown recalculation (lines 227-236): durations of window trades
with truthy `trade_duration` (`timedelta(0)` is falsy); `np.mean` of an
empty list is NaN and `NaN > 0` is false, so with no durations — or a
non-positive average — the cooldown is left unchanged; otherwise it becomes
`max(30, min(300, avg * 0.2))`. -/
def pyDurations (recent : List TradeMetrics) : List ℤ :=
  recent.filterMap fun t =>
    t.trade_duration.bind fun d => if d = 0 then none else some d

def avgDuration (recent : List TradeMetrics) : ℚ :=
  ((pyDurations recent).map (fun d => (d : ℚ))).sum /
    ((pyDurations recent).length : ℚ)

def cooldownStep (recent : List TradeMetrics) (p : ParamSet) : ParamSet :=
  if (pyDurations recent).isEmpty then p
  else if 0 < avgDuration recent then
    { p with signal_cooldown := max 30 (min 300 (avgDuration recent * (1/5))) }
  else p

/-- Embeds `optimize_parameters` (lines 173-257).  Gated: with fewer than
`evaluation_window` closed trades it returns the current parameters and
leaves the state untouched (lines 177-179).  Otherwise it runs the
threshold search, the size adjustment with clamp, and the cooldown
recalculation in that order — each mutating `optimal_params` in place —
then appends `{timestamp, params.copy(), metrics}` to `params_history`
(lines 238-248) and returns the parameters.  `datetime.now()` is passed in
as `now`. -/
def optimize_parameters (s : PerformanceMonitor) (now : ℤ) :
    PerformanceMonitor × ParamSet :=
  if s.trades.length < s.evaluation_window then (s, s.optimal_params)
  else
    let recent := pyLastWindow s.evaluation_window s.trades
    let p3 :=
      cooldownStep recent (sizeStep s (thresholdStep s (confRows recent)
        s.optimal_params))
    let entry : ParamsHistoryEntry :=
      { timestamp := now
        params := p3
        win_rate := s.win_rate
        profit_factor := s.profit_factor
        sharpe_ratio := s.sharpe_ratio
        max_drawdown := s.max_drawdown }
    ({ s with
        optimal_params := p3
        params_history := s.params_history ++ [entry] }, p3)

/-- A ledger call: a `record_trade_entry` or a `record_trade_exit`. -/
inductive LedgerEvent where
  | enter (symbol : String) (entry_time : ℤ)
      (entry_price position_size signal_confidence volatility : ℚ)
  | exitEv (symbol : String) (exit_time : ℤ) (exit_price market_impact : ℚ)
deriving DecidableEq, Repr

/-- Applies one ledger call to the monitor (exceptions from the metrics
update propagate to the caller, but the mutated monitor state persists,
exactly as for a Python object). -/
def applyEvent (s : PerformanceMonitor) : LedgerEvent → PerformanceMonitor
  | LedgerEvent.enter sym t price size conf vol =>
      record_trade_entry s sym t price size conf vol
  | LedgerEvent.exitEv sym t price impact =>
      (record_trade_exit s sym t price impact).1

/-- Runs a sequence of ledger calls. -/
def runEvents (s : PerformanceMonitor) (es : List LedgerEvent) :
    PerformanceMonitor :=
  es.foldl applyEvent s

/-- A sequence of calls is valid when every exit call names a symbol that
has an open trade at that point. -/
def validSeq (s : PerformanceMonitor) : List LedgerEvent → Bool
  | [] => true
  | e :: es =>
      (match e with
       | LedgerEvent.enter _ _ _ _ _ _ => true
       | LedgerEvent.exitEv sym _ _ _ =>
           (dictGet sym s.active_trades).isSome) &&
      validSeq (applyEvent s e) es

/-- Sum of the pnl values of the closed trades. -/
def closedPnlSum (s : PerformanceMonitor) : ℚ :=
  (s.trades.map (fun t => t.pnl.getD 0)).sum

/-- Daily returns as §4.2 of the spec describes them, for comparison with
the code: group the closed trades by the calendar day of their exit time
(day `⌊exit_time / 86400⌋`), sum the pnl per day, and divide by the
initial capital; days with no closed trade are omitted. -/
def exitDay (t : TradeMetrics) : Option ℤ :=
  t.exit_time.map fun x => Int.fdiv x 86400

def dailyReturnsSpec (trades : List TradeMetrics) (capital : ℚ) : List ℚ :=
  ((trades.filterMap exitDay).dedup).map fun d =>
    ((trades.filter (fun t => decide (exitDay t = some d))).map
      (fun t => t.pnl.getD 0)).sum / capital

/-! ## Helper lemmas -/

lemma updateMetrics_preserves (s : PerformanceMonitor) :
    ((updatePerformanceMetrics s).1).current_capital = s.current_capital ∧
    ((updatePerformanceMetrics s).1).initial_capital = s.initial_capital ∧
    ((updatePerformanceMetrics s).1).trades = s.trades ∧
    ((updatePerformanceMetrics s).1).active_trades = s.active_trades ∧
    ((updatePerformanceMetrics s).1).sharpe_ratio = s.sharpe_ratio ∧
    ((updatePerformanceMetrics s).1).daily_returns = s.daily_returns := by
  unfold updatePerformanceMetrics
  split <;> exact ⟨rfl, rfl, rfl, rfl, rfl, rfl⟩

lemma updateMetrics_raises (s : PerformanceMonitor) (h : s.trades ≠ []) :
    (updatePerformanceMetrics s).2 = true := by
  unfold updatePerformanceMetrics
  rw [if_neg (by simpa using h)]
  rfl

lemma record_trade_exit_commits (s : PerformanceMonitor) (sym : String)
    (et : ℤ) (ep mi : ℚ) (tr : TradeMetrics)
    (h : dictGet sym s.active_trades = some tr) :
    ((record_trade_exit s sym et ep mi).1).trades
        = s.trades ++ [closeTradeRecord tr et ep mi] ∧
    ((record_trade_exit s sym et ep mi).1).active_trades
        = dictErase sym s.active_trades ∧
    ((record_trade_exit s sym et ep mi).1).current_capital
        = s.current_capital + (ep - tr.entry_price) * tr.position_size ∧
    ((record_trade_exit s sym et ep mi).1).initial_capital
        = s.initial_capital ∧
    (record_trade_exit s sym et ep mi).2 = ExitStatus.closedMetricsRaised := by
  unfold record_trade_exit
  rw [h]
  simp only []
  refine ⟨?_, ?_, ?_, ?_, ?_⟩
  · exact (updateMetrics_preserves _).2.2.1
  · exact (updateMetrics_preserves _).2.2.2.1
  · exact (updateMetrics_preserves _).1
  · exact (updateMetrics_preserves _).2.1
  · rw [updateMetrics_raises _ (by simp)]
    rfl

lemma applyEvent_capital_invariant (e : LedgerEvent) (s : PerformanceMonitor)
    (h : s.current_capital = s.initial_capital + closedPnlSum s) :
    (applyEvent s e).current_capital
      = (applyEvent s e).initial_capital + closedPnlSum (applyEvent s e) := by
  cases e with
  | enter sym t price size conf vol =>
      simpa [applyEvent, record_trade_entry, closedPnlSum] using h
  | exitEv sym t price impact =>
      cases hd : dictGet sym s.active_trades with
      | none =>
          have : applyEvent s (LedgerEvent.exitEv sym t price impact) = s := by
            simp [applyEvent, record_trade_exit, hd]
          rw [this]; exact h
      | some tr =>
          have hc := record_trade_exit_commits s sym t price impact tr hd
          show ((record_trade_exit s sym t price impact).1).current_capital
            = ((record_trade_exit s sym t price impact).1).initial_capital
              + closedPnlSum ((record_trade_exit s sym t price impact).1)
          rw [hc.2.2.1, hc.2.2.2.1]
          unfold closedPnlSum
          rw [hc.1]
          simp [closeTradeRecord]
          rw [h]
          unfold closedPnlSum
          ring

lemma runEvents_capital (es : List LedgerEvent) :
    ∀ s : PerformanceMonitor,
      s.current_capital = s.initial_capital + closedPnlSum s →
      (runEvents s es).current_capital
        = (runEvents s es).initial_capital + closedPnlSum (runEvents s es) := by
  induction es with
  | nil => intro s h; exact h
  | cons e es ih => intro s h; exact ih _ (applyEvent_capital_invariant e s h)

lemma applyEvent_initial (s : PerformanceMonitor) (e : LedgerEvent) :
    (applyEvent s e).initial_capital = s.initial_capital := by
  cases e with
  | enter sym t price size conf vol => rfl
  | exitEv sym t price impact =>
      cases hd : dictGet sym s.active_trades with
      | none => simp [applyEvent, record_trade_exit, hd]
      | some tr => exact (record_trade_exit_commits s sym t price impact tr hd).2.2.2.1

lemma runEvents_initial (es : List LedgerEvent) :
    ∀ s : PerformanceMonitor,
      (runEvents s es).initial_capital = s.initial_capital := by
  induction es with
  | nil => intro s; rfl
  | cons e es ih => intro s; rw [runEvents] at *; exact (ih _).trans (applyEvent_initial s e)

/-! ## C1 -/

/-- C1: for every sequence of valid open/close calls (each close naming a
symbol with an open trade), after the sequence runs, `current_capital`
equals `initial_capital` plus the sum of the pnl values of all closed
trades. -/
theorem capital_invariant (cap ct mt tw : ℚ) (w : ℕ) (es : List LedgerEvent)
    (_h : validSeq (mkPerformanceMonitor cap ct w mt tw) es = true) :
    (runEvents (mkPerformanceMonitor cap ct w mt tw) es).current_capital
      = cap + closedPnlSum (runEvents (mkPerformanceMonitor cap ct w mt tw) es) := by
  have h0 : (mkPerformanceMonitor cap ct w mt tw).current_capital
      = (mkPerformanceMonitor cap ct w mt tw).initial_capital
        + closedPnlSum (mkPerformanceMonitor cap ct w mt tw) := by
    simp [mkPerformanceMonitor, closedPnlSum]
  have h1 := runEvents_capital es _ h0
  have h2 := runEvents_initial es (mkPerformanceMonitor cap ct w mt tw)
  rw [h1, h2]
  rfl

/-- The §8 scenario: open AAPL at 100 (size 10, confidence 0.7,
volatility 0.01), close at 110. -/
def scenarioEvents : List LedgerEvent :=
  [LedgerEvent.enter "AAPL" 0 100 10 (7/10) (1/100),
   LedgerEvent.exitEv "AAPL" 3600 110 0]

theorem capital_invariant_witness :
    validSeq (mkPerformanceMonitor 100000 (3/5) 50 (1/50) (11/20))
        scenarioEvents = true ∧
    (runEvents (mkPerformanceMonitor 100000 (3/5) 50 (1/50) (11/20))
        scenarioEvents).current_capital
      = 100000 + closedPnlSum (runEvents
          (mkPerformanceMonitor 100000 (3/5) 50 (1/50) (11/20)) scenarioEvents) :=
  ⟨rfl,
   capital_invariant 100000 (3/5) (1/50) (11/20) 50 scenarioEvents rfl⟩

/-! ## C3 -/

/-- C3: a close call naming a symbol with no open trade returns early with
a warning: no exception, and the monitor state — active map, closed
history, capital, metrics — is returned entirely unchanged. -/
theorem close_without_active_is_noop (s : PerformanceMonitor) (sym : String)
    (et : ℤ) (ep mi : ℚ) (h : dictGet sym s.active_trades = none) :
    record_trade_exit s sym et ep mi = (s, ExitStatus.noActiveWarning) := by
  unfold record_trade_exit
  rw [h]

theorem close_without_active_is_noop_witness :
    record_trade_exit (mkPerformanceMonitor 100000 (3/5) 50 (1/50) (11/20))
        "AAPL" 0 100 0
      = (mkPerformanceMonitor 100000 (3/5) 50 (1/50) (11/20),
         ExitStatus.noActiveWarning) :=
  close_without_active_is_noop _ "AAPL" 0 100 0 rfl

/-! ## C7 -/

/-- C7: when fewer than `evaluation_window` trades have ever closed,
`optimize_parameters` returns the current parameter set unchanged, raises
nothing, and leaves the whole optimizer state (including `params_history`)
unchanged. -/
theorem optimize_gated_unchanged (s : PerformanceMonitor) (now : ℤ)
    (h : s.trades.length < s.evaluation_window) :
    optimize_parameters s now = (s, s.optimal_params) := by
  unfold optimize_parameters
  rw [if_pos h]

theorem optimize_gated_unchanged_witness :
    optimize_parameters (mkPerformanceMonitor 100000 (3/5) 50 (1/50) (11/20)) 0
      = (mkPerformanceMonitor 100000 (3/5) 50 (1/50) (11/20),
         (mkPerformanceMonitor 100000 (3/5) 50 (1/50) (11/20)).optimal_params) :=
  optimize_gated_unchanged _ 0 (by decide)

/-! ## C10 -/

/-- C10: closing an active trade commits the ledger mutations — append the
closed record to history, delete the active entry, add the pnl to
`current_capital` — before `_update_performance_metrics` runs; the metrics
recomputation then raises, and the returned state shows the mutations
persisted (the close is not rolled back, so the call is not atomic on
error). -/
theorem exit_commits_before_metrics (s : PerformanceMonitor) (sym : String)
    (et : ℤ) (ep mi : ℚ) (tr : TradeMetrics)
    (h : dictGet sym s.active_trades = some tr) :
    (record_trade_exit s sym et ep mi).2 = ExitStatus.closedMetricsRaised ∧
    ((record_trade_exit s sym et ep mi).1).trades
      = s.trades ++ [closeTradeRecord tr et ep mi] ∧
    ((record_trade_exit s sym et ep mi).1).active_trades
      = dictErase sym s.active_trades ∧
    ((record_trade_exit s sym et ep mi).1).current_capital
      = s.current_capital + (ep - tr.entry_price) * tr.position_size := by
  have hc := record_trade_exit_commits s sym et ep mi tr h
  exact ⟨hc.2.2.2.2, hc.1, hc.2.1, hc.2.2.1⟩

/-- The monitor with one open AAPL trade, used as a concrete input. -/
def openState : PerformanceMonitor :=
  record_trade_entry (mkPerformanceMonitor 100000 (3/5) 50 (1/50) (11/20))
    "AAPL" 0 100 10 (7/10) (1/100)

/-- The open AAPL record stored in `openState.active_trades`. -/
def openTradeRec : TradeMetrics :=
  { symbol := "AAPL"
    entry_time := 0
    exit_time := none
    entry_price := 100
    exit_price := none
    position_size := 10
    signal_confidence := 7/10
    volatility_at_entry := 1/100 }

theorem exit_commits_before_metrics_witness :
    (record_trade_exit openState "AAPL" 3600 110 0).2
        = ExitStatus.closedMetricsRaised ∧
    ((record_trade_exit openState "AAPL" 3600 110 0).1).current_capital
        = openState.current_capital + (110 - openTradeRec.entry_price)
            * openTradeRec.position_size := by
  have hx := exit_commits_before_metrics openState "AAPL" 3600 110 0
    openTradeRec rfl
  exact ⟨hx.1, hx.2.2.2⟩

/-! ## C2 -/

lemma dictGet_dictInsert (k : String) (v : TradeMetrics)
    (d : List (String × TradeMetrics)) :
    dictGet k (dictInsert k v d) = some v := by
  induction d with
  | nil => simp [dictInsert, dictGet]
  | cons hd tl ih =>
      obtain ⟨k', v'⟩ := hd
      by_cases hk : k' = k
      · simp [dictInsert, dictGet, hk]
      · simp [dictInsert, dictGet, hk, ih]

/-- C2, counterexample: a second `record_trade_entry` for a symbol that
already has an open trade does not fail and does not leave the ledger
unchanged — it changes the active map (the stored AAPL record's entry time
moves from 0 to 5).  No `DuplicateTradeError` exists anywhere in the code:
the function is total and silently overwrites. -/
theorem duplicate_entry_not_rejected :
    dictGet "AAPL" (record_trade_entry openState "AAPL" 5 120 10 (7/10)
        (1/100)).active_trades
      ≠ dictGet "AAPL" openState.active_trades := by
  intro h
  have ha : Option.map TradeMetrics.entry_time
      (dictGet "AAPL" (record_trade_entry openState "AAPL" 5 120 10 (7/10)
        (1/100)).active_trades) = some 5 := rfl
  have hb : Option.map TradeMetrics.entry_time
      (dictGet "AAPL" openState.active_trades) = some 0 := rfl
  rw [h, hb] at ha
  simp at ha

/-- C2, amended: a second open call for a symbol with an open trade raises
no error; it silently replaces the symbol's active record with the freshly
built open record (discarding the first open trade) and leaves the closed
history, the capital and the parameter history unchanged. -/
theorem duplicate_entry_overwrites (s : PerformanceMonitor) (sym : String)
    (t : ℤ) (price size conf vol : ℚ) (tr0 : TradeMetrics)
    (_h : dictGet sym s.active_trades = some tr0) :
    (record_trade_entry s sym t price size conf vol).trades = s.trades ∧
    (record_trade_entry s sym t price size conf vol).current_capital
        = s.current_capital ∧
    (record_trade_entry s sym t price size conf vol).params_history
        = s.params_history ∧
    dictGet sym (record_trade_entry s sym t price size conf vol).active_trades
        = some
          { symbol := sym
            entry_time := t
            exit_time := none
            entry_price := price
            exit_price := none
            position_size := size
            signal_confidence := conf
            volatility_at_entry := vol } :=
  ⟨rfl, rfl, rfl, dictGet_dictInsert sym _ s.active_trades⟩

theorem duplicate_entry_overwrites_witness :
    (record_trade_entry openState "AAPL" 5 120 10 (7/10) (1/100)).trades
        = openState.trades ∧
    dictGet "AAPL" (record_trade_entry openState "AAPL" 5 120 10 (7/10)
        (1/100)).active_trades
      = some
        { symbol := "AAPL"
          entry_time := 5
          exit_time := none
          entry_price := 120
          exit_price := none
          position_size := 10
          signal_confidence := 7/10
          volatility_at_entry := 1/100 } := by
  have hx := duplicate_entry_overwrites openState "AAPL" 5 120 10 (7/10)
    (1/100) openTradeRec rfl
  exact ⟨hx.1, hx.2.2.2⟩

/-! ## C9 -/

lemma thresholdStep_psf (s : PerformanceMonitor) (rows : List ConfRow)
    (p : ParamSet) :
    (thresholdStep s rows p).position_size_factor = p.position_size_factor := by
  unfold thresholdStep
  split <;> rfl

lemma sizeStep_psf (s : PerformanceMonitor) (p : ParamSet) :
    (sizeStep s p).position_size_factor
      = min (max (sizeAdjusted s p.position_size_factor) (1/5)) 2 := rfl

lemma cooldownStep_psf (recent : List TradeMetrics) (p : ParamSet) :
    (cooldownStep recent p).position_size_factor = p.position_size_factor := by
  unfold cooldownStep
  split
  · rfl
  · split <;> rfl

lemma thresholdStep_cooldown (s : PerformanceMonitor) (rows : List ConfRow)
    (p : ParamSet) :
    (thresholdStep s rows p).signal_cooldown = p.signal_cooldown := by
  unfold thresholdStep
  split <;> rfl

lemma optimize_params_formula (s : PerformanceMonitor) (now : ℤ)
    (h : ¬ s.trades.length < s.evaluation_window) :
    ((optimize_parameters s now).1).optimal_params
      = cooldownStep (pyLastWindow s.evaluation_window s.trades)
          (sizeStep s (thresholdStep s
            (confRows (pyLastWindow s.evaluation_window s.trades))
            s.optimal_params)) := by
  unfold optimize_parameters
  rw [if_neg h]

/-- C9: in every non-gated optimize call the position-size factor goes
through exactly one of the priority-ordered branches — ×0.8 when
`max_drawdown` exceeds the ceiling, else ×1.2 when `win_rate` beats the
target and `max_drawdown` is below half the ceiling, else unchanged — and
is then unconditionally clamped to [0.2, 2.0], so afterwards it always
lies in that interval. -/
theorem position_size_adjustment (s : PerformanceMonitor) (now : ℤ)
    (h : s.evaluation_window ≤ s.trades.length) :
    (((optimize_parameters s now).1).optimal_params).position_size_factor
        = min (max (sizeAdjusted s s.optimal_params.position_size_factor)
            (1/5)) 2 ∧
    (1/5 : ℚ) ≤
      (((optimize_parameters s now).1).optimal_params).position_size_factor ∧
    (((optimize_parameters s now).1).optimal_params).position_size_factor
        ≤ 2 := by
  rw [optimize_params_formula s now (Nat.not_lt.mpr h), cooldownStep_psf,
    sizeStep_psf, thresholdStep_psf]
  refine ⟨rfl, le_min (le_max_right _ _) (by norm_num), min_le_right _ _⟩

/-- The §8 scenario state for the size adjustment: drawdown 0.03 against
ceiling 0.02.  The evaluation window is 0, so the optimize call is
non-gated even with an empty history (`trades[-0:]` is the whole list). -/
def c9State : PerformanceMonitor :=
  { initial_capital := 100000
    current_capital := 100000
    confidence_threshold := 3/5
    evaluation_window := 0
    max_drawdown_threshold := 1/50
    target_win_rate := 11/20
    trades := []
    active_trades := []
    daily_returns := []
    win_rate := 0
    profit_factor := QInf.fin 0
    sharpe_ratio := 0
    max_drawdown := 3/100
    optimal_params :=
      { confidence_threshold := 3/5
        position_size_factor := 1
        signal_cooldown := 60 }
    params_history := [] }

theorem position_size_adjustment_witness :
    c9State.evaluation_window ≤ c9State.trades.length ∧
    (((optimize_parameters c9State 0).1).optimal_params).position_size_factor
      = 4/5 := by
  have hx := position_size_adjustment c9State 0 (by decide)
  refine ⟨by decide, ?_⟩
  rw [hx.1]
  show min (max (sizeAdjusted c9State 1) (1/5)) 2 = 4/5
  have hmd : c9State.max_drawdown_threshold < c9State.max_drawdown := by
    norm_num [c9State]
  unfold sizeAdjusted
  rw [if_pos hmd]
  norm_num [min_def, max_def]

/-! ## C4 -/

lemma updateMetrics_profit_factor (s : PerformanceMonitor)
    (h : s.trades ≠ []) :
    ((updatePerformanceMetrics s).1).profit_factor
      = if 0 < grossLoss (pyLastWindow s.evaluation_window s.trades)
        then QInf.fin (grossProfit (pyLastWindow s.evaluation_window s.trades)
              / grossLoss (pyLastWindow s.evaluation_window s.trades))
        else QInf.inf := by
  unfold updatePerformanceMetrics
  rw [if_neg (by simpa using h)]
  rfl

lemma record_trade_exit_metrics_state (s : PerformanceMonitor) (sym : String)
    (et : ℤ) (ep mi : ℚ) (tr : TradeMetrics)
    (h : dictGet sym s.active_trades = some tr) :
    (record_trade_exit s sym et ep mi).1
      = (updatePerformanceMetrics
          { s with
            current_capital :=
              s.current_capital + (ep - tr.entry_price) * tr.position_size
            trades := s.trades ++ [closeTradeRecord tr et ep mi]
            active_trades := dictErase sym s.active_trades }).1 := by
  unfold record_trade_exit
  rw [h]
  rfl

/-- C4: the daily-returns recomputation is broken.  At the concrete input
"open AAPL at 100 (size 10), close at 110" the close call ends with the
metrics recomputation raising (pandas `resample('D')` on a RangeIndex
Series raises TypeError), `daily_returns` is never assigned and keeps its
initial empty value, whereas the spec's per-exit-day grouping of the same
window would produce the one-day series [pnl/initial_capital] = [1/1000].
The claim's required behaviour — per-day sums computed, recomputation
completing without raising — never happens on any non-empty window. -/
theorem daily_returns_recompute_raises :
    (record_trade_exit openState "AAPL" 3600 110 0).2
        = ExitStatus.closedMetricsRaised ∧
    ((record_trade_exit openState "AAPL" 3600 110 0).1).daily_returns = [] ∧
    dailyReturnsSpec ((record_trade_exit openState "AAPL" 3600 110 0).1).trades
        100000 = [1/1000] := by
  refine ⟨rfl, rfl, ?_⟩
  have ht : ((record_trade_exit openState "AAPL" 3600 110 0).1).trades
      = [closeTradeRecord openTradeRec 3600 110 0] := rfl
  rw [ht]
  have hd : (List.filterMap exitDay
      [closeTradeRecord openTradeRec 3600 110 0]).dedup = [0] := rfl
  unfold dailyReturnsSpec
  rw [hd]
  have hf : Int.fdiv 3600 86400 = 0 := rfl
  norm_num [exitDay, closeTradeRecord, openTradeRec, List.filter, hf]

/-! ## C5 -/

lemma sum_neg_of_all_neg (l : List ℚ) (hne : l ≠ [])
    (hall : ∀ x ∈ l, x < 0) : l.sum < 0 := by
  induction l with
  | nil => exact absurd rfl hne
  | cons a tl ih =>
      rcases eq_or_ne tl [] with h | h
      · subst h; simpa using hall a (by simp)
      · have h1 := ih h (fun x hx => hall x (by simp [hx]))
        have h2 := hall a (by simp)
        simp only [List.sum_cons]
        linarith

lemma filter_neg_elements (l : List TradeMetrics) :
    ∀ t ∈ l.filter pnlNegative, t.pnl.getD 0 < 0 := by
  intro t ht
  rw [List.mem_filter] at ht
  have h2 := ht.2
  unfold pnlNegative at h2
  cases hp : t.pnl with
  | none => rw [hp] at h2; simp at h2
  | some p =>
      rw [hp] at h2
      simp only [decide_eq_true_eq] at h2
      simpa [hp] using h2

lemma grossLoss_eq_zero_iff (l : List TradeMetrics) :
    grossLoss l = 0 ↔ l.filter pnlNegative = [] := by
  unfold grossLoss
  constructor
  · intro h
    rw [abs_eq_zero] at h
    by_contra hne
    have hmapne : (l.filter pnlNegative).map (fun t => t.pnl.getD 0) ≠ [] := by
      simpa using hne
    have hall : ∀ x ∈ (l.filter pnlNegative).map (fun t => t.pnl.getD 0),
        x < 0 := by
      intro x hx
      rw [List.mem_map] at hx
      obtain ⟨t, ht, rfl⟩ := hx
      exact filter_neg_elements l t ht
    have := sum_neg_of_all_neg _ hmapne hall
    rw [h] at this
    exact absurd this (lt_irrefl 0)
  · intro h
    rw [h]
    simp

lemma grossLoss_nonneg (l : List TradeMetrics) : 0 ≤ grossLoss l :=
  abs_nonneg _

/-- C5, counterexample: a window consisting of one zero-pnl trade (entry
100, exit 100) has no losing trade and no trade with positive pnl, and yet
the code sets `profit_factor` to the +infinity sentinel (`gross_loss == 0`
triggers the sentinel regardless of any profit), contradicting the claim's
"exactly when … at least one trade with positive pnl". -/
theorem profit_factor_inf_without_profit :
    ((record_trade_exit openState "AAPL" 3600 100 0).1).profit_factor
        = QInf.inf ∧
    ∀ t ∈ ((record_trade_exit openState "AAPL" 3600 100 0).1).trades,
      pnlPositive t = false := by
  constructor
  · rw [record_trade_exit_metrics_state openState "AAPL" 3600 100 0
      openTradeRec rfl]
    rw [updateMetrics_profit_factor _ (by simp)]
    norm_num [openState, record_trade_entry, mkPerformanceMonitor,
      pyLastWindow, grossLoss, pnlNegative, closeTradeRecord, openTradeRec,
      List.filter]
  · intro t ht
    have htr : ((record_trade_exit openState "AAPL" 3600 100 0).1).trades
        = [closeTradeRecord openTradeRec 3600 100 0] := rfl
    rw [htr] at ht
    rw [List.mem_singleton] at ht
    subst ht
    norm_num [pnlPositive, closeTradeRecord, openTradeRec]

/-- C5, amended: for a non-empty trade history the recomputation sets
`profit_factor = Σ(positive pnl)/|Σ(negative pnl)|` whenever the window
has a losing trade, and to the +infinity sentinel exactly when the window
contains no trade with negative pnl — whether or not any trade has
positive pnl; with no closed trades the field is left unchanged (hence 0,
its initial value, until a first trade closes). -/
theorem profit_factor_formula (s : PerformanceMonitor) :
    (s.trades ≠ [] →
      ((updatePerformanceMetrics s).1).profit_factor
          = (if 0 < grossLoss (pyLastWindow s.evaluation_window s.trades)
             then QInf.fin
                (grossProfit (pyLastWindow s.evaluation_window s.trades)
                  / grossLoss (pyLastWindow s.evaluation_window s.trades))
             else QInf.inf) ∧
      (((updatePerformanceMetrics s).1).profit_factor = QInf.inf ↔
        ∀ t ∈ pyLastWindow s.evaluation_window s.trades,
          pnlNegative t = false)) ∧
    (s.trades = [] →
      ((updatePerformanceMetrics s).1).profit_factor = s.profit_factor) ∧
    (mkPerformanceMonitor s.initial_capital s.confidence_threshold
        s.evaluation_window s.max_drawdown_threshold
        s.target_win_rate).profit_factor = QInf.fin 0 := by
  refine ⟨?_, ?_, rfl⟩
  · intro h
    have hpf := updateMetrics_profit_factor s h
    refine ⟨hpf, ?_⟩
    rw [hpf]
    by_cases hgl : 0 < grossLoss (pyLastWindow s.evaluation_window s.trades)
    · rw [if_pos hgl]
      constructor
      · intro hfin; exact absurd hfin (by simp)
      · intro hall
        have : grossLoss (pyLastWindow s.evaluation_window s.trades) = 0 := by
          rw [grossLoss_eq_zero_iff, List.filter_eq_nil_iff]
          intro t ht
          simp [hall t ht]
        rw [this] at hgl
        exact absurd hgl (lt_irrefl 0)
    · rw [if_neg hgl]
      have hzero : grossLoss (pyLastWindow s.evaluation_window s.trades) = 0 :=
        le_antisymm (not_lt.mp hgl) (grossLoss_nonneg _)
      rw [grossLoss_eq_zero_iff, List.filter_eq_nil_iff] at hzero
      constructor
      · intro _ t ht
        have := hzero t ht
        simpa using this
      · intro _; rfl
  · intro h
    unfold updatePerformanceMetrics
    rw [if_pos (by simpa using h)]

/-- A two-trade state (one +2 winner, one −1 loser) with window 0, so the
whole list is the window. -/
def winningTrade : TradeMetrics :=
  { symbol := "W"
    entry_time := 0
    exit_time := some 3600
    entry_price := 100
    exit_price := some 102
    position_size := 1
    signal_confidence := 1/2
    pnl := some 2
    trade_duration := some 3600 }

def losingTrade : TradeMetrics :=
  { symbol := "L"
    entry_time := 0
    exit_time := some 7200
    entry_price := 100
    exit_price := some 99
    position_size := 1
    signal_confidence := 1/2
    pnl := some (-1)
    trade_duration := some 7200 }

def c5WitState : PerformanceMonitor :=
  { initial_capital := 100000
    current_capital := 100001
    confidence_threshold := 3/5
    evaluation_window := 0
    max_drawdown_threshold := 1/50
    target_win_rate := 11/20
    trades := [winningTrade, losingTrade]
    active_trades := []
    daily_returns := []
    win_rate := 1/2
    profit_factor := QInf.fin 0
    sharpe_ratio := 0
    max_drawdown := 0
    optimal_params :=
      { confidence_threshold := 3/5
        position_size_factor := 1
        signal_cooldown := 60 }
    params_history := [] }

theorem profit_factor_formula_witness :
    c5WitState.trades ≠ [] ∧
    ((updatePerformanceMetrics c5WitState).1).profit_factor = QInf.fin 2 := by
  have hx := (profit_factor_formula c5WitState).1 (by simp [c5WitState])
  refine ⟨by simp [c5WitState], ?_⟩
  rw [hx.1]
  have hgl : grossLoss (pyLastWindow c5WitState.evaluation_window
      c5WitState.trades) = 1 := by
    norm_num [grossLoss, pyLastWindow, pnlNegative, c5WitState, winningTrade,
      losingTrade, List.filter]
  have hgp : grossProfit (pyLastWindow c5WitState.evaluation_window
      c5WitState.trades) = 2 := by
    norm_num [grossProfit, pyLastWindow, pnlPositive, c5WitState, winningTrade,
      losingTrade, List.filter]
  rw [hgl, hgp]
  norm_num

/-! ## C6 -/

/-- Monitor after opening A (day 0). -/
def c6s1 : PerformanceMonitor :=
  record_trade_entry (mkPerformanceMonitor 100000 (3/5) 50 (1/50) (11/20))
    "A" 0 100 10 (7/10) 0

/-- Monitor after closing A at 110 (pnl 100, exit on day 0). -/
def c6s2 : PerformanceMonitor := (record_trade_exit c6s1 "A" 3600 110 0).1

/-- Monitor after opening B on day 1. -/
def c6s3 : PerformanceMonitor := record_trade_entry c6s2 "B" 86400 100 10 (7/10) 0

/-- C6: the sharpe-ratio branch is unreachable.  After two closes on two
distinct calendar days — a window the spec's grouping turns into two daily
points, so per the claim `sharpe_ratio` should be assigned
√252·mean/stdev — the metrics recomputation raises at the daily-returns
step, `daily_returns` is still empty (so `len(...) > 1` is never even
evaluated), and `sharpe_ratio` still holds its initial 0. -/
theorem sharpe_ratio_never_updated :
    (record_trade_exit c6s3 "B" 90000 120 0).2
        = ExitStatus.closedMetricsRaised ∧
    ((record_trade_exit c6s3 "B" 90000 120 0).1).sharpe_ratio = 0 ∧
    ((record_trade_exit c6s3 "B" 90000 120 0).1).daily_returns = [] ∧
    (dailyReturnsSpec ((record_trade_exit c6s3 "B" 90000 120 0).1).trades
        100000).length = 2 := by
  exact ⟨rfl, rfl, rfl, rfl⟩

/-! ## C8 -/

lemma sweepStep_snd_mono (rows : List ConfRow) (acc : ℚ × ℚ) (c : ℚ) :
    acc.2 ≤ (sweepStep rows acc c).2 := by
  unfold sweepStep
  by_cases h1 : 10 < (eligRows rows c).length
  · rw [if_pos h1]
    by_cases h2 : acc.2 < subsetWR rows c
    · rw [if_pos h2]
      exact le_of_lt h2
    · rw [if_neg h2]
  · rw [if_neg h1]

lemma sweep_fold_snd_mono (rows : List ConfRow) :
    ∀ (cands : List ℚ) (acc : ℚ × ℚ),
      acc.2 ≤ (cands.foldl (sweepStep rows) acc).2 := by
  intro cands
  induction cands with
  | nil => intro acc; exact le_refl _
  | cons c tl ih =>
      intro acc
      rw [List.foldl_cons]
      exact le_trans (sweepStep_snd_mono rows acc c) (ih _)

lemma sweep_fold_stable (rows : List ConfRow) :
    ∀ (cands : List ℚ) (acc : ℚ × ℚ),
      (∀ c ∈ cands, 10 < (eligRows rows c).length →
        subsetWR rows c ≤ acc.2) →
      cands.foldl (sweepStep rows) acc = acc := by
  intro cands
  induction cands with
  | nil => intro acc _; rfl
  | cons c tl ih =>
      intro acc hall
      rw [List.foldl_cons]
      have hstep : sweepStep rows acc c = acc := by
        unfold sweepStep
        by_cases h1 : 10 < (eligRows rows c).length
        · rw [if_pos h1, if_neg (not_lt.mpr (hall c (by simp) h1))]
        · rw [if_neg h1]
      rw [hstep]
      exact ih acc (fun d hd => hall d (by simp [hd]))

lemma sweep_fold_bound (rows : List ConfRow) :
    ∀ (cands : List ℚ) (acc : ℚ × ℚ) (c : ℚ),
      c ∈ cands → 10 < (eligRows rows c).length →
      subsetWR rows c ≤ (cands.foldl (sweepStep rows) acc).2 := by
  intro cands
  induction cands with
  | nil => intro acc c hc; exact absurd hc (List.not_mem_nil c)
  | cons a tl ih =>
      intro acc c hc helig
      rw [List.foldl_cons]
      rcases List.mem_cons.mp hc with rfl | htl
      · have h1 : subsetWR rows c ≤ (sweepStep rows acc c).2 := by
          unfold sweepStep
          rw [if_pos helig]
          by_cases h2 : acc.2 < subsetWR rows c
          · rw [if_pos h2]
          · rw [if_neg h2]
            exact not_lt.mp h2
        exact le_trans h1 (sweep_fold_snd_mono rows tl _)
      · exact ih _ c htl helig

lemma sweep_fold_fix (rows : List ConfRow) :
    ∀ (cands : List ℚ) (acc : ℚ × ℚ),
      (cands.foldl (sweepStep rows) acc).2 = acc.2 →
      cands.foldl (sweepStep rows) acc = acc := by
  intro cands
  induction cands with
  | nil => intro acc _; rfl
  | cons a tl ih =>
      intro acc h
      rw [List.foldl_cons] at h ⊢
      have hm2 := sweep_fold_snd_mono rows tl (sweepStep rows acc a)
      have hm1 := sweepStep_snd_mono rows acc a
      have hsnd : (sweepStep rows acc a).2 = acc.2 :=
        le_antisymm (h ▸ hm2) hm1
      have hstep : sweepStep rows acc a = acc := by
        unfold sweepStep at hsnd ⊢
        by_cases h1 : 10 < (eligRows rows a).length
        · rw [if_pos h1] at hsnd ⊢
          by_cases h2 : acc.2 < subsetWR rows a
          · rw [if_pos h2] at hsnd
            exact absurd hsnd (ne_of_gt h2)
          · rw [if_neg h2]
        · rw [if_neg h1]
      rw [hstep] at h ⊢
      exact ih acc h

lemma sweep_fold_progress (rows : List ConfRow) :
    ∀ (cands : List ℚ) (acc : ℚ × ℚ),
      acc.2 < (cands.foldl (sweepStep rows) acc).2 →
      (cands.foldl (sweepStep rows) acc).1 ∈ cands ∧
      10 < (eligRows rows (cands.foldl (sweepStep rows) acc).1).length ∧
      subsetWR rows (cands.foldl (sweepStep rows) acc).1
        = (cands.foldl (sweepStep rows) acc).2 := by
  intro cands
  induction cands with
  | nil => intro acc h; exact absurd h (lt_irrefl _)
  | cons a tl ih =>
      intro acc h
      rw [List.foldl_cons] at h ⊢
      by_cases hstep : sweepStep rows acc a = acc
      · rw [hstep] at h ⊢
        obtain ⟨g1, g2, g3⟩ := ih acc h
        exact ⟨List.mem_cons_of_mem a g1, g2, g3⟩
      · have hcond : 10 < (eligRows rows a).length ∧
            acc.2 < subsetWR rows a ∧
            sweepStep rows acc a = (a, subsetWR rows a) := by
          unfold sweepStep at hstep ⊢
          by_cases h1 : 10 < (eligRows rows a).length
          · rw [if_pos h1] at hstep ⊢
            by_cases h2 : acc.2 < subsetWR rows a
            · rw [if_pos h2] at hstep ⊢
              exact ⟨h1, h2, rfl⟩
            · rw [if_neg h2] at hstep
              exact absurd rfl hstep
          · rw [if_neg h1] at hstep
            exact absurd rfl hstep
        obtain ⟨h1, h2, hstepeq⟩ := hcond
        rw [hstepeq] at h ⊢
        by_cases hmono : (a, subsetWR rows a).2
            < (tl.foldl (sweepStep rows) (a, subsetWR rows a)).2
        · obtain ⟨g1, g2, g3⟩ := ih _ hmono
          exact ⟨List.mem_cons_of_mem a g1, g2, g3⟩
        · have hfix := sweep_fold_fix rows tl (a, subsetWR rows a)
            (le_antisymm (not_lt.mp hmono) (sweep_fold_snd_mono rows tl _))
          rw [hfix]
          exact ⟨List.mem_cons_self a tl, h1, rfl⟩

lemma sizeStep_ct (s : PerformanceMonitor) (p : ParamSet) :
    (sizeStep s p).confidence_threshold = p.confidence_threshold := rfl

lemma cooldownStep_ct (recent : List TradeMetrics) (p : ParamSet) :
    (cooldownStep recent p).confidence_threshold = p.confidence_threshold := by
  unfold cooldownStep
  split
  · rfl
  · split <;> rfl

/-- The window's `confidence_performance` rows. -/
def windowRows (s : PerformanceMonitor) : List ConfRow :=
  confRows (pyLastWindow s.evaluation_window s.trades)

/-- The confidence threshold stored in `optimal_params` after an optimize
call. -/
def optThreshold (s : PerformanceMonitor) (now : ℤ) : ℚ :=
  ((optimize_parameters s now).1).optimal_params.confidence_threshold

lemma optimize_confidence_threshold (s : PerformanceMonitor) (now : ℤ)
    (h : ¬ s.trades.length < s.evaluation_window)
    (hrows : windowRows s ≠ []) :
    optThreshold s now
      = (confCandidates.foldl (sweepStep (windowRows s))
          (s.confidence_threshold, s.win_rate)).1 := by
  unfold optThreshold
  rw [optimize_params_formula s now h, cooldownStep_ct, sizeStep_ct]
  unfold thresholdStep
  have hne : ¬ ((confRows (pyLastWindow s.evaluation_window s.trades)).isEmpty
      = true) := by
    intro hemp
    exact hrows (by simpa [windowRows] using hemp)
  rw [if_neg hne]
  rfl

lemma sum_success_le_length (l : List ConfRow)
    (h : ∀ r ∈ l, r.success ≤ 1) :
    (l.map (fun r => r.success)).sum ≤ (l.length : ℚ) := by
  induction l with
  | nil => simp
  | cons a tl ih =>
      simp only [List.map_cons, List.sum_cons, List.length_cons]
      push_cast
      have ha := h a (by simp)
      have htl := ih (fun r hr => h r (by simp [hr]))
      linarith

lemma subsetWR_le_one (rows : List ConfRow) (c : ℚ)
    (h : ∀ r ∈ rows, r.success ≤ 1) : subsetWR rows c ≤ 1 := by
  unfold subsetWR
  rcases Nat.eq_zero_or_pos (eligRows rows c).length with hz | hp
  · rw [hz]
    simp
  · have hlen : (0:ℚ) < ((eligRows rows c).length : ℚ) := by exact_mod_cast hp
    rw [div_le_one hlen]
    exact sum_success_le_length _ (fun r hr => h r (List.mem_of_mem_filter hr))

lemma confRows_success_le_one (recent : List TradeMetrics) :
    ∀ r ∈ confRows recent, r.success ≤ 1 := by
  intro r hr
  unfold confRows at hr
  rw [List.mem_filterMap] at hr
  obtain ⟨t, _, hmap⟩ := hr
  cases hp : t.pnl with
  | none => rw [hp] at hmap; simp at hmap
  | some p =>
      rw [hp] at hmap
      simp only [Option.map_some'] at hmap
      have heq := Option.some_inj.mp hmap
      rw [← heq]
      by_cases hpos : pnlPositive t = true
      · simp [hpos]
      · simp [hpos]

/-- A winning closed trade with confidence 0.55 and pnl 1. -/
def c8Trade : TradeMetrics :=
  { symbol := "A"
    entry_time := 0
    exit_time := some 3600
    entry_price := 100
    exit_price := some 101
    position_size := 1
    signal_confidence := 11/20
    pnl := some 1
    trade_duration := some 3600 }

/-- A reachable-shaped state: a previous optimize call moved the optimized
threshold to 0.70 while the constructor attribute stayed 0.60; the window
now holds 12 winners at confidence 0.55 (window size 12), so no candidate
strictly beats the stored overall win rate 1. -/
def c8State : PerformanceMonitor :=
  { initial_capital := 100000
    current_capital := 100012
    confidence_threshold := 3/5
    evaluation_window := 12
    max_drawdown_threshold := 1/50
    target_win_rate := 11/20
    trades := List.replicate 12 c8Trade
    active_trades := []
    daily_returns := []
    win_rate := 1
    profit_factor := QInf.inf
    sharpe_ratio := 0
    max_drawdown := 0
    optimal_params :=
      { confidence_threshold := 7/10
        position_size_factor := 1
        signal_cooldown := 60 }
    params_history := [] }

/-- C8, counterexample: when no eligible candidate strictly beats the
window's overall win rate, the claim says the existing threshold is
retained — but the search is seeded with the constructor attribute
`self.confidence_threshold`, not with
`optimal_params['confidence_threshold']`, so the optimize call resets the
threshold from 0.70 back to 0.60 instead of retaining it. -/
theorem threshold_reset_not_retained :
    c8State.optimal_params.confidence_threshold = 7/10 ∧
    c8State.win_rate = 1 ∧
    (∀ c ∈ confCandidates, 10 < (eligRows (windowRows c8State) c).length →
      subsetWR (windowRows c8State) c ≤ c8State.win_rate) ∧
    optThreshold c8State 0 = 3/5 := by
  refine ⟨rfl, rfl, ?_, ?_⟩
  · intro c _ _
    show subsetWR (windowRows c8State) c ≤ (1:ℚ)
    exact subsetWR_le_one _ c (confRows_success_le_one _)
  · have hrows : windowRows c8State ≠ [] := by
      have hl : (windowRows c8State).length = 12 := rfl
      intro hnil
      rw [hnil] at hl
      simp at hl
    rw [optimize_confidence_threshold c8State 0 (by decide) hrows]
    have hstable := sweep_fold_stable (windowRows c8State) confCandidates
      (c8State.confidence_threshold, c8State.win_rate)
      (fun c _ _ => subsetWR_le_one _ c (confRows_success_le_one _))
    rw [hstable]
    rfl

/-- C8, amended: the search sweeps exactly the candidates 0.50, 0.55, …,
0.85; a candidate is eligible iff strictly more than 10 window trades have
confidence at least the candidate.  If some eligible candidate's win rate
strictly exceeds the stored overall win rate, the resulting threshold is
an eligible candidate whose win rate is maximal among eligible candidates
and strictly beats the overall win rate.  Otherwise — including ties — the
threshold is reset to the monitor's initial configured
`confidence_threshold` attribute, which equals the previously optimized
threshold only when optimization never moved it. -/
theorem confidence_threshold_search (s : PerformanceMonitor) (now : ℤ)
    (h : s.evaluation_window ≤ s.trades.length)
    (hrows : windowRows s ≠ []) :
    ((∀ c ∈ confCandidates, 10 < (eligRows (windowRows s) c).length →
        subsetWR (windowRows s) c ≤ s.win_rate) →
      optThreshold s now = s.confidence_threshold) ∧
    (∀ c ∈ confCandidates, 10 < (eligRows (windowRows s) c).length →
      s.win_rate < subsetWR (windowRows s) c →
      optThreshold s now ∈ confCandidates ∧
      10 < (eligRows (windowRows s) (optThreshold s now)).length ∧
      s.win_rate < subsetWR (windowRows s) (optThreshold s now) ∧
      ∀ d ∈ confCandidates, 10 < (eligRows (windowRows s) d).length →
        subsetWR (windowRows s) d
          ≤ subsetWR (windowRows s) (optThreshold s now)) := by
  have hθ := optimize_confidence_threshold s now (Nat.not_lt.mpr h) hrows
  constructor
  · intro hall
    rw [hθ, sweep_fold_stable _ _ _ (fun c hc he => hall c hc he)]
  · intro c hc he hgt
    have hb := sweep_fold_bound (windowRows s) confCandidates
      (s.confidence_threshold, s.win_rate) c hc he
    have hprog : (s.confidence_threshold, s.win_rate).2
        < (confCandidates.foldl (sweepStep (windowRows s))
            (s.confidence_threshold, s.win_rate)).2 := lt_of_lt_of_le hgt hb
    obtain ⟨g1, g2, g3⟩ := sweep_fold_progress (windowRows s) confCandidates
      (s.confidence_threshold, s.win_rate) hprog
    rw [hθ]
    refine ⟨g1, g2, ?_, ?_⟩
    · rw [g3]
      exact hprog
    · intro d hd hde
      rw [g3]
      exact sweep_fold_bound _ _ _ d hd hde

/-- A winner at confidence 0.80. -/
def c8WinTrade : TradeMetrics :=
  { symbol := "W"
    entry_time := 0
    exit_time := some 3600
    entry_price := 100
    exit_price := some 101
    position_size := 1
    signal_confidence := 4/5
    pnl := some 1
    trade_duration := some 3600 }

/-- A loser at confidence 0.10. -/
def c8LoseTrade : TradeMetrics :=
  { symbol := "L"
    entry_time := 0
    exit_time := some 3600
    entry_price := 100
    exit_price := some 99
    position_size := 1
    signal_confidence := 1/10
    pnl := some (-1)
    trade_duration := some 3600 }

/-- 11 winners at confidence 0.80 plus one low-confidence loser: the
confidence-restricted subsets beat the overall win rate 11/12. -/
def c8WitState : PerformanceMonitor :=
  { initial_capital := 100000
    current_capital := 100010
    confidence_threshold := 3/5
    evaluation_window := 12
    max_drawdown_threshold := 1/50
    target_win_rate := 11/20
    trades := List.replicate 11 c8WinTrade ++ [c8LoseTrade]
    active_trades := []
    daily_returns := []
    win_rate := 11/12
    profit_factor := QInf.inf
    sharpe_ratio := 0
    max_drawdown := 0
    optimal_params :=
      { confidence_threshold := 3/5
        position_size_factor := 1
        signal_cooldown := 60 }
    params_history := [] }

theorem confidence_threshold_search_witness :
    optThreshold c8WitState 0 ∈ confCandidates ∧
    10 < (eligRows (windowRows c8WitState) (optThreshold c8WitState 0)).length ∧
    c8WitState.win_rate
      < subsetWR (windowRows c8WitState) (optThreshold c8WitState 0) := by
  have hrows : windowRows c8WitState ≠ [] := by
    have hl : (windowRows c8WitState).length = 12 := rfl
    intro hnil
    rw [hnil] at hl
    simp at hl
  have hwr : windowRows c8WitState
      = List.replicate 11 { confidence := 4/5, pnl := 1, success := 1 }
        ++ [{ confidence := 1/10, pnl := -1, success := 0 }] := rfl
  have h2 : 10 < (eligRows (windowRows c8WitState) (1/2)).length := by
    rw [hwr]
    norm_num [eligRows, List.replicate, List.filter]
  have h3 : c8WitState.win_rate < subsetWR (windowRows c8WitState) (1/2) := by
    rw [hwr]
    show (11/12 : ℚ) < _
    norm_num [subsetWR, eligRows, List.replicate, List.filter]
  have hmem : (1/2 : ℚ) ∈ confCandidates := by simp [confCandidates]
  have hx := (confidence_threshold_search c8WitState 0 (by decide) hrows).2
    (1/2) hmem h2 h3
  exact ⟨hx.1, hx.2.1, hx.2.2.1⟩
